import Mathlib

/-!
# Shallow embedding of `src/app/client-wrapper.js` (rxbot `ClientWrapper`)

The embedded core is the command-shaping logic of the wrapper:

* list normalization (`channels.split(' ')` / `nicks.split(' ')` string branch
  shared by `join`, `part`, `kick`, `setPrivileges`),
* line splitting of `sendMessage` (`lines.split(/[\r\n]+/)`, with the
  byte-buffer branch additionally filtering empty lines),
* the MODE batching loop of `setPrivileges` (`batch_size = 6`),
* topic composition of `getTopic`,
* `kick`, `setNick`, `getNick`.

The connection collaborator (`this.lib`) is modelled as a state `Conn`
holding the current nick, the channel-data cache, and the trace of commands
handed to `send`.  Each wrapper method becomes a function from `Conn` (plus
its arguments) to an updated `Conn` together with an `Option Err`; the
error is `some .invalidArgument` exactly when one of the method's `assert`
calls fails, and the definitions evaluate the asserts in source order,
before any `send`, as the JS does.
-/

/-- One outbound wire command: `[verb, ...args]`, sent via
`this.lib.send.apply` / `this.lib.send`. -/
abbrev Command := List String

/-- The error of a failed `assert` (the spec's `InvalidArgument`). -/
inductive Err where
  | invalidArgument
  deriving DecidableEq, Repr

/-- Channel snapshot as returned by `this.lib.chanData(channel)`: the two
fields `getTopic` reads, each possibly absent. -/
structure ChanData where
  topic : Option String
  topicBy : Option String
  deriving DecidableEq, Repr

/-- The connection collaborator (`this.lib`) as seen by the wrapper:
`nick` property, `chanData` lookup, and the trace of commands sent so far. -/
structure Conn where
  nick : String
  chans : String → Option ChanData
  sent : List Command

/-- Embeds `this.lib.send(verb, ...args)`: append one command to the trace. -/
def send (c : Conn) (cmd : Command) : Conn :=
  { c with sent := c.sent ++ [cmd] }

/-- The send loops of `kick` / `sendMessage` / `setPrivileges`: transmit a
list of already-built commands in order. -/
def sendEach (c : Conn) (cmds : List Command) : Conn :=
  cmds.foldl send c

/-- A JS value passed where `string | Array` is expected (`channels`,
`nicks`); `other` stands for every value of any further type. -/
inductive ListInput where
  | str (s : String)
  | arr (xs : List String)
  | other
  deriving DecidableEq, Repr

/-- JS `s.split(sep)` for a one-character separator string: split at every
occurrence of `sep`, keeping empty segments (`"a  b".split(' ')` is
`["a", "", "b"]`, `"".split(' ')` is `[""]`). -/
def jsSplitChar (sep : Char) (s : String) : List String :=
  (s.data.splitOn sep).map String.mk

/-- The shared string-or-array normalization of `join` (lines 103-106),
`part` (112-115), `kick` (121-124) and `setPrivileges` (189-192):
`if (typeof x === 'string') x = x.split(' '); assert(x instanceof Array)`. -/
def normalizeList : ListInput → Except Err (List String)
  | .str s => .ok (jsSplitChar ' ' s)
  | .arr xs => .ok xs
  | .other => .error .invalidArgument

/-- The character class `[\r\n]`. -/
def isCRLF (c : Char) : Bool := c == '\r' || c == '\n'

/-- Worker for JS `split` on the regex `/p+/`: `acc` is the current segment
(reversed), `inRun` records whether the previous character was a delimiter,
so that a maximal run of delimiter characters acts as one delimiter. -/
def jsSplitRunsAux (p : Char → Bool) : List Char → List Char → Bool → List String
  | [], acc, _ => [String.mk acc.reverse]
  | ch :: cs, acc, inRun =>
    if p ch then
      if inRun then jsSplitRunsAux p cs acc true
      else String.mk acc.reverse :: jsSplitRunsAux p cs [] true
    else jsSplitRunsAux p cs (ch :: acc) false

/-- JS `s.split(/[\r\n]+/)`-style splitting: a maximal run of characters
satisfying `p` is a single delimiter; a leading (trailing) run yields a
leading (trailing) empty segment, and `""` splits to `[""]`. -/
def jsSplitRuns (p : Char → Bool) (s : String) : List String :=
  jsSplitRunsAux p s.data [] false

/-- A JS value passed as the `lines` argument of `sendMessage`: a string, a
`Buffer` (represented by the text it decodes to), an array of strings, or
anything else. -/
inductive LinesInput where
  | str (s : String)
  | buf (s : String)
  | arr (xs : List String)
  | other
  deriving DecidableEq, Repr

/-- The lines-conversion step of `sendMessage` (lines 168-175): strings are
split on `/[\r\n]+/`; buffers are decoded, split the same way, and then
filtered by `line => line.length`; arrays pass through; anything else fails
`assert(lines instanceof Array)`. -/
def formatLines : LinesInput → Except Err (List String)
  | .str s => .ok (jsSplitRuns isCRLF s)
  | .buf s => .ok ((jsSplitRuns isCRLF s).filter (fun line => line.length != 0))
  | .arr xs => .ok xs
  | .other => .error .invalidArgument

/-- Lower-cased character list of a string (for the `i` regex flag). -/
def lcChars (s : String) : List Char := s.data.map Char.toLower

/-- Contiguous-subsequence (substring) test on character lists. -/
def containsSeq (needle : List Char) : List Char → Bool
  | [] => needle.isEmpty
  | c :: t => needle.isPrefixOf (c :: t) || containsSeq needle t

/-- Embeds `assert.match(type, /PRIVMSG|NOTICE/i)` (line 166): an unanchored,
case-insensitive search. -/
def jsMatchMsgType (t : String) : Bool :=
  containsSeq (lcChars "PRIVMSG") (lcChars t) || containsSeq (lcChars "NOTICE") (lcChars t)

/-- Embeds `assert.match` of `action` against the unanchored regex alternating
`\+` and `\-` (line 186): true iff the string contains a `+` or a `-`
anywhere. -/
def jsMatchAction (a : String) : Bool :=
  a.data.any (fun c => c == '+' || c == '-')

/-- Embeds `assert.match(privilege, /v|h|o/i)` (line 187): an unanchored
case-insensitive search, true iff the string contains `v`, `h` or `o` in
either case anywhere. -/
def jsMatchPrivilege (p : String) : Bool :=
  p.data.any (fun c => c.toLower == 'v' || c.toLower == 'h' || c.toLower == 'o')

/-- JS `String.prototype.repeat`. -/
def strRepeat (s : String) (n : Nat) : String :=
  String.join (List.replicate n s)

/-- The command built for one nick by `kick` (lines 127-131):
`['KICK', channel, nick]`, with the reason pushed only when `reason` is
truthy (defined and non-empty). -/
def kickCmd (channel : String) (reason : Option String) (nick : String) : Command :=
  match reason with
  | some r => if r = "" then ["KICK", channel, nick] else ["KICK", channel, nick, r]
  | none => ["KICK", channel, nick]

/-- Embeds `kick(channel, nicks, reason)` (lines 120-135). -/
def kick (c : Conn) (channel : String) (nicksIn : ListInput) (reason : Option String) :
    Conn × Option Err :=
  match normalizeList nicksIn with
  | .error e => (c, some e)
  | .ok nicks => (sendEach c (nicks.map (kickCmd channel reason)), none)

/-- Embeds `getNick()` (lines 137-139): returns `this.lib.nick`. -/
def getNick (c : Conn) : String := c.nick

/-- Embeds `setNick(nick)` (lines 141-143): sends one NICK command; the JS method
has no `return` statement, so its value is `undefined`, modelled `none`. -/
def setNick (c : Conn) (nick : String) : Conn × Option String :=
  (send c ["NICK", nick], none)

/-- The topic composition of `getTopic` (lines 145-158) as a function of the
snapshot `this.lib.chanData(channel)`.  `if (data && data.topic)` and
`if (data.topicBy)` test JS truthiness, so an empty-string field counts as
absent. -/
def composeTopic : Option ChanData → Option String
  | none => none
  | some d =>
    match d.topic with
    | none => none
    | some t =>
      if t = "" then none
      else
        some (match d.topicBy with
          | some b => if b = "" then t else t ++ " set by " ++ b
          | none => t)

/-- Embeds `getTopic(channel)` on the connection state: it reads the snapshot and
performs no write, so the state comes back as it went in. -/
def getTopicS (c : Conn) (channel : String) : Option String × Conn :=
  (composeTopic (c.chans channel), c)

/-- A JS value passed as the `target` of `sendMessage`: only strings pass
`assert.strictEqual(typeof target, 'string')`. -/
inductive TargetInput where
  | str (s : String)
  | other
  deriving DecidableEq, Repr

/-- Embeds `sendMessage(type, target, lines, prefix)` (lines 164-182): asserts on
`target` and `type`, the lines conversion, the optional prefixing
(`prefix !== undefined`, so an empty-string prefix is applied), then one
send per line. -/
def sendMessage (c : Conn) (type : String) (target : TargetInput)
    (linesIn : LinesInput) (pfx : Option String) : Conn × Option Err :=
  match target with
  | .other => (c, some .invalidArgument)
  | .str tgt =>
    if jsMatchMsgType type then
      match formatLines linesIn with
      | .error e => (c, some e)
      | .ok rawLines =>
        let lines := match pfx with
          | some p => rawLines.map (fun line => p ++ " " ++ line)
          | none => rawLines
        (sendEach c (lines.map (fun line => [type, tgt, line])), none)
    else (c, some .invalidArgument)

/-- The i-th batch `nicks.slice(i * 6, i * 6 + 6)` of `setPrivileges`
(lines 198-199), with `batch_size = 6`. -/
def batchChunk (nicks : List String) (i : Nat) : List String :=
  (nicks.drop (i * 6)).take 6

/-- The MODE commands built by the batching loop of `setPrivileges`
(lines 194-204): `batch_count = Math.ceil(nicks.length / 6)` iterations,
each emitting `['MODE', channel, action + privilege.repeat(len), ...batch]`. -/
def setPrivilegesCmds (channel action privilege : String) (nicks : List String) :
    List Command :=
  (List.range ((nicks.length + 5) / 6)).map fun i =>
    ["MODE", channel, action ++ strRepeat privilege (batchChunk nicks i).length]
      ++ batchChunk nicks i

/-- Embeds `setPrivileges(channel, action, privilege, nicks)` (lines 184-205): the
asserts in source order (`typeof channel === 'string'` always holds here
since `channel : String`), then normalization, then the send loop. -/
def setPrivileges (c : Conn) (channel action privilege : String) (nicksIn : ListInput) :
    Conn × Option Err :=
  if jsMatchAction action then
    if jsMatchPrivilege privilege then
      match normalizeList nicksIn with
      | .error e => (c, some e)
      | .ok nicks => (sendEach c (setPrivilegesCmds channel action privilege nicks), none)
    else (c, some .invalidArgument)
  else (c, some .invalidArgument)

/-- A concrete connection state used in witnesses and counterexamples. -/
def connEx : Conn :=
  { nick := "rxbot", chans := fun _ => none, sent := [] }

/-- The validity condition the spec claims `setPrivileges` enforces
(spec-side definition, written from the spec's words for comparison with
the code's actual validation): non-empty channel, action equal to a wire
character, privilege equal to a single wire letter, case-insensitive. -/
def specClaimedValid (channel action privilege : String) : Prop :=
  channel ≠ "" ∧ (action = "+" ∨ action = "-") ∧
    privilege ∈ ["v", "h", "o", "V", "H", "O"]

/-! ## Helper lemmas -/

theorem sendEach_sent (cmds : List Command) (c : Conn) :
    (sendEach c cmds).sent = c.sent ++ cmds := by
  induction cmds generalizing c with
  | nil => simp [sendEach]
  | cons cmd rest ih =>
      show (sendEach (send c cmd) rest).sent = _
      rw [ih (send c cmd)]
      simp [send]

theorem batchChunk_length_le (nicks : List String) (i : Nat) :
    (batchChunk nicks i).length ≤ 6 := by
  simp [batchChunk]

theorem chunks_join_aux :
    ∀ (n : Nat) (l : List String), l.length ≤ n →
      ((List.range ((l.length + 5) / 6)).map (batchChunk l)).flatten = l := by
  intro n
  induction n with
  | zero =>
      intro l hl
      have hnil : l = [] := List.eq_nil_of_length_eq_zero (Nat.le_zero.mp hl)
      subst hnil
      simp
  | succ n ih =>
      intro l hl
      rcases Nat.eq_zero_or_pos l.length with h0 | hpos
      · have hnil : l = [] := List.eq_nil_of_length_eq_zero h0
        subst hnil
        simp
      · have hcount : (l.length + 5) / 6 = ((l.drop 6).length + 5) / 6 + 1 := by
          rw [List.length_drop]
          omega
        rw [hcount, List.range_succ_eq_map, List.map_cons, List.flatten_cons, List.map_map]
        have hhead : batchChunk l 0 = l.take 6 := by
          simp [batchChunk]
        have htail : (List.range (((l.drop 6).length + 5) / 6)).map (batchChunk l ∘ Nat.succ)
            = (List.range (((l.drop 6).length + 5) / 6)).map (batchChunk (l.drop 6)) := by
          apply List.map_congr_left
          intro i _
          show batchChunk l (i + 1) = batchChunk (l.drop 6) i
          unfold batchChunk
          rw [List.drop_drop]
          congr 2
          omega
        rw [hhead, htail, ih (l.drop 6) (by rw [List.length_drop]; omega)]
        exact List.take_append_drop 6 l

theorem chunks_join (l : List String) :
    ((List.range ((l.length + 5) / 6)).map (batchChunk l)).flatten = l :=
  chunks_join_aux l.length l (Nat.le_refl _)

/-! ## Claim theorems -/

/-- C1: for every valid channel, action and privilege and every nick list of
length N, `setPrivileges` succeeds and emits exactly ceil(N/6) = (N+5)/6
MODE commands; the i-th command is `["MODE", channel, action ++ privilege
repeated once per nick of the i-th chunk] ++ chunk`, every chunk is the
consecutive slice `nicks.slice(6i, 6i+6)` of at most 6 nicks, the
concatenation of the chunks is the input nick list, and N = 0 yields zero
commands. -/
theorem setPrivileges_batching (c : Conn) (channel action privilege : String)
    (nicks : List String) (_hch : channel ≠ "")
    (ha : action = "+" ∨ action = "-")
    (hp : privilege ∈ ["v", "h", "o", "V", "H", "O"]) :
    (setPrivileges c channel action privilege (.arr nicks)).2 = none ∧
    (setPrivileges c channel action privilege (.arr nicks)).1.sent =
      c.sent ++ setPrivilegesCmds channel action privilege nicks ∧
    (setPrivilegesCmds channel action privilege nicks).length = (nicks.length + 5) / 6 ∧
    (∀ i, (h : i < (setPrivilegesCmds channel action privilege nicks).length) →
      (setPrivilegesCmds channel action privilege nicks)[i] =
        ["MODE", channel, action ++ strRepeat privilege (batchChunk nicks i).length]
          ++ batchChunk nicks i ∧
      batchChunk nicks i = (nicks.drop (i * 6)).take 6 ∧
      (batchChunk nicks i).length ≤ 6) ∧
    ((List.range ((nicks.length + 5) / 6)).map (batchChunk nicks)).flatten = nicks ∧
    (nicks.length = 0 → setPrivilegesCmds channel action privilege nicks = []) := by
  have hja : jsMatchAction action = true := by
    rcases ha with h | h <;> subst h <;> decide
  have hjp : jsMatchPrivilege privilege = true := by
    simp only [List.mem_cons, List.mem_singleton, List.not_mem_nil, or_false] at hp
    rcases hp with h | h | h | h | h | h <;> subst h <;> decide
  refine ⟨?_, ?_, ?_, ?_, chunks_join nicks, ?_⟩
  · simp [setPrivileges, hja, hjp, normalizeList]
  · simp [setPrivileges, hja, hjp, normalizeList, sendEach_sent]
  · simp [setPrivilegesCmds]
  · intro i h
    refine ⟨?_, rfl, batchChunk_length_le nicks i⟩
    simp only [setPrivilegesCmds] at h ⊢
    rw [List.getElem_map, List.getElem_range]
  · intro h0
    simp [setPrivilegesCmds, h0]

/-- Witness for C1 at channel `#c`, action `+`, privilege `o` and a 7-nick
list: the hypotheses hold and the call succeeds, emitting the two batched
MODE commands. -/
theorem setPrivileges_batching_witness :
    ("#c" : String) ≠ "" ∧ (("+" : String) = "+" ∨ ("+" : String) = "-") ∧
    ("o" : String) ∈ ["v", "h", "o", "V", "H", "O"] ∧
    (setPrivileges connEx "#c" "+" "o" (.arr ["a", "b", "c", "d", "e", "f", "g"])).2 = none ∧
    (setPrivileges connEx "#c" "+" "o" (.arr ["a", "b", "c", "d", "e", "f", "g"])).1.sent =
      connEx.sent ++ setPrivilegesCmds "#c" "+" "o" ["a", "b", "c", "d", "e", "f", "g"] ∧
    (setPrivilegesCmds "#c" "+" "o" ["a", "b", "c", "d", "e", "f", "g"]).length =
      (["a", "b", "c", "d", "e", "f", "g"].length + 5) / 6 := by
  have h := setPrivileges_batching connEx "#c" "+" "o" ["a", "b", "c", "d", "e", "f", "g"]
    (by decide) (Or.inl rfl) (by decide)
  exact ⟨by decide, Or.inl rfl, by decide, h.1, h.2.1, h.2.2.1⟩

/-- C2 counterexample: the string input `"a\r\nb\r\n\r\nc"` does NOT yield
`["a", "b", "", "c"]` — the regex `[\r\n]+` swallows the consecutive CRLFs
as one delimiter, so it yields `["a", "b", "c"]`. -/
theorem sendMessage_split_counterexample :
    formatLines (.str "a\r\nb\r\n\r\nc") = .ok ["a", "b", "c"] ∧
    jsSplitRuns isCRLF "a\r\nb\r\n\r\nc" ≠ ["a", "b", "", "c"] :=
  ⟨rfl, by decide⟩

/-- C2 (amended): on `"a\r\nb\r\n\r\nc"` the string input and the
byte-buffer input both yield `["a", "b", "c"]` (the empty segment between
consecutive CRLFs is never produced, because a run of CR/LF characters is a
single delimiter); the string/buffer asymmetry shows only at a leading or
trailing line break, e.g. `"a\r\n"` yields `["a", ""]` as a string but
`["a"]` as a buffer. -/
theorem sendMessage_split_amended :
    formatLines (.str "a\r\nb\r\n\r\nc") = .ok ["a", "b", "c"] ∧
    formatLines (.buf "a\r\nb\r\n\r\nc") = .ok ["a", "b", "c"] ∧
    formatLines (.str "a\r\n") = .ok ["a", ""] ∧
    formatLines (.buf "a\r\n") = .ok ["a"] :=
  ⟨rfl, rfl, rfl, rfl⟩

/-- C3 counterexample: the string branch splits on every single space, so
`"alice bob   carol"` (three spaces before `carol`) normalizes to
`["alice", "bob", "", "", "carol"]`, not `["alice", "bob", "carol"]`. -/
theorem normalizeList_counterexample :
    normalizeList (.str "alice bob   carol") = .ok ["alice", "bob", "", "", "carol"] ∧
    jsSplitChar ' ' "alice bob   carol" ≠ ["alice", "bob", "carol"] :=
  ⟨rfl, by decide⟩

/-- C3 (amended): for every string input the normalization splits on each
single space character (not on runs, not on other whitespace) and keeps
every token, empty ones included: intercalating the resulting tokens with
one space reconstructs the input, and `"alice bob   carol"` yields
`["alice", "bob", "", "", "carol"]`. -/
theorem normalizeList_amended (s : String) :
    (∃ toks, normalizeList (.str s) = .ok toks ∧
      List.intercalate [' '] (toks.map String.data) = s.data) ∧
    normalizeList (.str "alice bob   carol") = .ok ["alice", "bob", "", "", "carol"] := by
  refine ⟨⟨jsSplitChar ' ' s, rfl, ?_⟩, rfl⟩
  have hmap : (jsSplitChar ' ' s).map String.data = s.data.splitOn ' ' := by
    unfold jsSplitChar
    rw [List.map_map]
    have hid : String.data ∘ String.mk = id := rfl
    rw [hid, List.map_id]
  rw [hmap, List.intercalate_splitOn]

/-- C4 counterexample: a present snapshot whose `topic` field is the present
(but empty) string gives an absent result, although neither the snapshot nor
its topic field is absent. -/
theorem composeTopic_counterexample :
    composeTopic (some { topic := some "", topicBy := none }) = none ∧
    (some { topic := some "", topicBy := none } : Option ChanData) ≠ none ∧
    ({ topic := some "", topicBy := none } : ChanData).topic ≠ none :=
  ⟨rfl, by simp, by simp⟩

/-- C4 (amended): `getTopic` returns absent exactly when the snapshot is
absent, its topic is absent, or its topic is the empty string (JS
truthiness); otherwise it returns the topic, with " set by {topicSetter}"
appended exactly when the topicSetter field is present and non-empty. -/
theorem composeTopic_amended (dOpt : Option ChanData) :
    (composeTopic dOpt = none ↔
      dOpt = none ∨ ∃ d, dOpt = some d ∧ (d.topic = none ∨ d.topic = some "")) ∧
    (∀ d t b, dOpt = some d → d.topic = some t → t ≠ "" → d.topicBy = some b → b ≠ "" →
      composeTopic dOpt = some (t ++ " set by " ++ b)) ∧
    (∀ d t, dOpt = some d → d.topic = some t → t ≠ "" →
      (d.topicBy = none ∨ d.topicBy = some "") → composeTopic dOpt = some t) := by
  refine ⟨?_, ?_, ?_⟩
  · cases dOpt with
    | none => simp [composeTopic]
    | some d =>
        obtain ⟨topt, bopt⟩ := d
        cases topt with
        | none => simp [composeTopic]
        | some t =>
            by_cases ht : t = ""
            · subst ht; simp [composeTopic]
            · simp [composeTopic, ht]
  · intro d t b hd htop htne hby hbne
    subst hd
    simp [composeTopic, htop, htne, hby, hbne]
  · intro d t hd htop htne hbyor
    subst hd
    rcases hbyor with hby | hby <;> simp [composeTopic, htop, htne, hby]

/-- Witness for C4 (amended) at the spec's example snapshot: topic "hello"
set by "alice" composes to "hello set by alice". -/
theorem composeTopic_amended_witness :
    composeTopic (some { topic := some "hello", topicBy := some "alice" }) =
      some "hello set by alice" :=
  (composeTopic_amended (some { topic := some "hello", topicBy := some "alice" })).2.1
    { topic := some "hello", topicBy := some "alice" } "hello" "alice" rfl rfl
    (by decide) rfl (by decide)

/-- C5: a `setPrivileges` or `sendMessage` call that fails validation raises
the error with the transmit trace unchanged: zero commands reach the
connection collaborator, and no partial batch is ever emitted. -/
theorem invalid_sends_nothing (c : Conn) (channel action privilege : String)
    (nicksIn : ListInput) (type : String) (target : TargetInput)
    (linesIn : LinesInput) (pfx : Option String) :
    ((setPrivileges c channel action privilege nicksIn).2.isSome = true →
      (setPrivileges c channel action privilege nicksIn).1.sent = c.sent) ∧
    ((sendMessage c type target linesIn pfx).2.isSome = true →
      (sendMessage c type target linesIn pfx).1.sent = c.sent) := by
  constructor
  · intro h
    cases nicksIn <;>
      by_cases h1 : jsMatchAction action <;>
      by_cases h2 : jsMatchPrivilege privilege <;>
      simp_all [setPrivileges, normalizeList]
  · intro h
    cases target with
    | other => rfl
    | str tgt =>
        cases linesIn <;>
          by_cases h1 : jsMatchMsgType type <;>
          simp_all [sendMessage, formatLines]

/-- Witness for C5: the invalid privilege token "x" and the non-string
message target each raise the error and leave the transmit trace empty. -/
theorem invalid_sends_nothing_witness :
    (setPrivileges connEx "#c" "+" "x" (.arr ["a"])).2.isSome = true ∧
    (setPrivileges connEx "#c" "+" "x" (.arr ["a"])).1.sent = connEx.sent ∧
    (sendMessage connEx "PRIVMSG" .other (.arr ["hi"]) none).2.isSome = true ∧
    (sendMessage connEx "PRIVMSG" .other (.arr ["hi"]) none).1.sent = connEx.sent :=
  ⟨rfl,
   (invalid_sends_nothing connEx "#c" "+" "x" (.arr ["a"]) "PRIVMSG" .other
      (.arr ["hi"]) none).1 rfl,
   rfl,
   (invalid_sends_nothing connEx "#c" "+" "x" (.arr ["a"]) "PRIVMSG" .other
      (.arr ["hi"]) none).2 rfl⟩

/-- C6 counterexample: the empty channel together with valid action and
privilege is accepted (`typeof channel === 'string'` is the only channel
check), refuting "accepts only if the channel is non-empty". -/
theorem setPrivileges_validation_counterexample :
    (setPrivileges connEx "" "+" "v" (.arr ["a"])).2 = none ∧
    ¬ specClaimedValid "" "+" "v" :=
  ⟨rfl, by simp [specClaimedValid]⟩

/-- C6 (amended): `setPrivileges` accepts exactly when the action string
contains a '+' or '-' anywhere, the privilege string contains a 'v', 'h' or
'o' in either case anywhere (the regexes are unanchored), and the nicks
argument is a string or an array; the channel may be any string, the empty
one included. -/
theorem setPrivileges_validation_amended (c : Conn) (channel action privilege : String)
    (nicksIn : ListInput) :
    (setPrivileges c channel action privilege nicksIn).2 = none ↔
      ((∃ ch ∈ action.data, ch = '+' ∨ ch = '-') ∧
       (∃ ch ∈ privilege.data, ch.toLower = 'v' ∨ ch.toLower = 'h' ∨ ch.toLower = 'o') ∧
       nicksIn ≠ ListInput.other) := by
  have hact : jsMatchAction action = true ↔ ∃ ch ∈ action.data, ch = '+' ∨ ch = '-' := by
    simp [jsMatchAction, List.any_eq_true]
  have hpriv : jsMatchPrivilege privilege = true ↔
      ∃ ch ∈ privilege.data, ch.toLower = 'v' ∨ ch.toLower = 'h' ∨ ch.toLower = 'o' := by
    simp [jsMatchPrivilege, List.any_eq_true, or_assoc]
  cases nicksIn <;>
    by_cases h1 : jsMatchAction action <;>
    by_cases h2 : jsMatchPrivilege privilege <;>
    simp_all [setPrivileges, normalizeList]

/-- C7 counterexample: a provided-but-empty reason is dropped: the emitted
command has no reason token although a reason was provided, refuting
"appended if and only if a reason was provided". -/
theorem kick_reason_counterexample :
    (kick connEx "#chan" (.arr ["bob"]) (some "")).1.sent = [["KICK", "#chan", "bob"]] ∧
    (some "" : Option String) ≠ none :=
  ⟨rfl, by simp⟩

/-- C7 (amended): `kick` succeeds on list input and emits, in list order,
exactly one KICK command per normalized nick, of the form
`["KICK", channel, nick]` with the reason appended as a final token exactly
when the reason is provided and non-empty (truthy); and
`kick("#chan", "bob carol", "spam")` emits exactly the two KICK commands
ending in "spam". -/
theorem kick_amended (c : Conn) (channel : String) (nicks : List String)
    (reason : Option String) :
    ((kick c channel (.arr nicks) reason).2 = none ∧
     (kick c channel (.arr nicks) reason).1.sent =
       c.sent ++ nicks.map (fun nick =>
         match reason with
         | some r => if r = "" then ["KICK", channel, nick] else ["KICK", channel, nick, r]
         | none => ["KICK", channel, nick])) ∧
    (kick connEx "#chan" (.str "bob carol") (some "spam")).1.sent =
      [["KICK", "#chan", "bob", "spam"], ["KICK", "#chan", "carol", "spam"]] := by
  refine ⟨⟨rfl, ?_⟩, rfl⟩
  show (sendEach c (nicks.map (kickCmd channel reason))).sent = _
  have hfun : kickCmd channel reason = fun nick =>
      (match reason with
      | some r => if r = "" then ["KICK", channel, nick] else ["KICK", channel, nick, r]
      | none => ["KICK", channel, nick]) := by
    funext nick
    cases reason <;> rfl
  rw [sendEach_sent, hfun]

/-- C8 counterexample: `setNick` does not return the current nick: the JS
method body is a single `send` with no `return`, so its value is
`undefined` (`none`), not the `currentNick()` passthrough value. -/
theorem setNick_return_counterexample :
    (setNick connEx "newnick").2 = none ∧
    (none : Option String) ≠ some (getNick connEx) :=
  ⟨rfl, by simp⟩

/-- C8 (amended): `setNick` emits exactly one NICK command and returns no
value; the current nick is instead returned by `getNick`, a passthrough of
the connection collaborator's `nick` property. -/
theorem setNick_amended (c : Conn) (nick : String) :
    (setNick c nick).1.sent = c.sent ++ [["NICK", nick]] ∧
    (setNick c nick).2 = none ∧
    getNick c = c.nick :=
  ⟨rfl, rfl, rfl⟩

/-- C9: `getTopic` never mutates the channel snapshot: the connection state
after the call is exactly the one before it — in particular every channel's
snapshot, with its topic and topicSetter fields, is unchanged — and the
result is composed from the unchanged snapshot. -/
theorem getTopic_no_mutation (c : Conn) (channel : String) :
    (getTopicS c channel).2 = c ∧
    (∀ ch, (getTopicS c channel).2.chans ch = c.chans ch) ∧
    (getTopicS c channel).1 = composeTopic (c.chans channel) :=
  ⟨rfl, fun _ => rfl, rfl⟩

/-- C10: `kick` with an explicitly provided empty-string reason emits KICK
commands with no reason token at all, identically to calling it with no
reason. -/
theorem kick_empty_reason (c : Conn) (channel : String) (nicks : List String) :
    (kick c channel (.arr nicks) (some "")).1.sent =
      c.sent ++ nicks.map (fun nick => ["KICK", channel, nick]) ∧
    (kick c channel (.arr nicks) (some "")).1.sent =
      (kick c channel (.arr nicks) none).1.sent := by
  constructor
  · simp [kick, normalizeList, sendEach_sent, kickCmd]
  · rfl
